import Mathlib

/-!
Shallow embedding of `src/circular-history.js` (the canonical, documented
variant of the `CircularHistory` structure: the one with the
`navigationUpperBound` / `navigatedItemsCount` window, `current`,
`moveBackward`/`moveForward` with the pointer-0 and pointer-(-1) special
transitions, `clear`, `dump`, `getCurrentIndex`, `isStartReached`,
`isEndReached`).

JavaScript runtime values are modelled by `JsValue`; `typeof` by
`typeofJs`; array holes and out-of-range reads by the `undefined` value
(`new Array(capacity)` yields holes, reading a hole or a missing index
yields `undefined`, and `isItemEmpty` tests `=== undefined`); the JS `%`
operator (sign follows the dividend) by `Int.tmod`.  A thrown exception is
an `Except.error`; since the type check in `commit` precedes every
mutation, a throwing `commit` leaves the state unchanged.
-/

/-- Model of a JavaScript runtime value, as far as `typeof`, the `null`
check and equality observations need.  `sym` and `obj` carry an identity
tag so that distinct symbols/objects are distinct values. -/
inductive JsValue where
  | num (n : Int)
  | str (s : String)
  | big (n : Int)
  | bool (b : Bool)
  | sym (id : Nat)
  | obj (id : Nat)
  | null
  | undefined
deriving DecidableEq, Repr

/-- JavaScript `typeof`. Note `typeof null === "object"`. -/
def typeofJs : JsValue → String
  | .num _ => "number"
  | .str _ => "string"
  | .big _ => "bigint"
  | .bool _ => "boolean"
  | .sym _ => "symbol"
  | .obj _ => "object"
  | .null => "object"
  | .undefined => "undefined"

/-- `ALLOWED_DATA_TYPES` from the source. -/
def ALLOWED_DATA_TYPES : List String :=
  ["number", "string", "bigint", "boolean", "symbol", "object"]

/-- `NAVIGATION_LOWER_BOUND` from the source. -/
def NAVIGATION_LOWER_BOUND : Int := 0

/-- `EMPTY_POINTER` from the source. -/
def EMPTY_POINTER : Int := -1

/-- `isTypeAllowed = (type) => ALLOWED_DATA_TYPES.includes(type)`. -/
def isTypeAllowed (t : String) : Bool := ALLOWED_DATA_TYPES.contains t

/-- `isValueTypeAllowed`: `isObject || isTypeAllowed(typeof value)` where
`isObject = typeof value === "object" && value !== null`. -/
def isValueTypeAllowed (value : JsValue) : Bool :=
  (typeofJs value == "object" && value != JsValue.null) || isTypeAllowed (typeofJs value)

/-- `canCommit = (value, dataType) => isValueTypeAllowed(value) && typeof value === dataType`. -/
def canCommit (value : JsValue) (dataType : String) : Bool :=
  isValueTypeAllowed value && (typeofJs value == dataType)

/-- `isItemEmpty = (slot) => slot === undefined`. -/
def isItemEmpty (slot : JsValue) : Bool := slot == JsValue.undefined

/-- `makeIndex = (pointer, capacity) => pointer % capacity`; the JS `%`
keeps the sign of the dividend, i.e. is truncated modulo. -/
def makeIndex (pointer capacity : Int) : Int := pointer.tmod capacity

/-- Reading `buf[i]` on a JS array: a hole, a negative index or an index
beyond the length all yield `undefined`. -/
def arrGet (buf : List JsValue) (i : Int) : JsValue :=
  if 0 ≤ i then buf.getD i.toNat JsValue.undefined else JsValue.undefined

/-- Writing `buf[i] = v` on a JS array at an index inside `[0, length)`;
a negative index in JS stores a non-index property, which never shows up
in the buffer's index range, so it is a no-op here (such writes only
arise in unreachable states). -/
def arrSet (buf : List JsValue) (i : Int) (v : JsValue) : List JsValue :=
  if 0 ≤ i then buf.set i.toNat v else buf

/-- The private state stored for a `CircularHistory` instance. -/
structure CircularHistory where
  navigationUpperBound : Int
  navigatedItemsCount : Int
  pointer : Int
  capacity : Int
  dataType : String
  buffer : List JsValue
deriving DecidableEq, Repr

namespace CircularHistory

/-- The state installed by the constructor (after its validation has
passed): window `(0, 0)`, pointer `-1`, an all-hole buffer of `capacity`
slots. -/
def init (capacity : Int) (dataType : String) : CircularHistory :=
  { navigationUpperBound := NAVIGATION_LOWER_BOUND
    navigatedItemsCount := NAVIGATION_LOWER_BOUND
    pointer := EMPTY_POINTER
    capacity := capacity
    dataType := dataType
    buffer := List.replicate capacity.toNat JsValue.undefined }

/-- The constructor `CircularHistory(capacity, dataType)`: validates the
capacity (positive integer; integrality is intrinsic to `Int`) and the
data type, then installs the initial state. -/
def construct (capacity : Int) (dataType : String) : Except String CircularHistory :=
  if capacity ≤ 0 then .error "Capacity must be a positive integer."
  else if ¬ isTypeAllowed dataType then .error "dataType is not allowed"
  else .ok (init capacity dataType)

/-- The state mutation performed by a successful `commit` (everything
after the type check): re-pin or grow the navigation window, advance the
pointer, write the value at `makeIndex(pointer, capacity)`. -/
def commitStep (s : CircularHistory) (value : JsValue) : CircularHistory :=
  let s1 :=
    if s.navigatedItemsCount = s.capacity - 1 then
      { s with navigationUpperBound := s.capacity - 1
               navigatedItemsCount := s.capacity - 1 }
    else
      { s with navigatedItemsCount := s.navigatedItemsCount + 1
               navigationUpperBound := s.navigatedItemsCount + 1 }
  { s1 with pointer := s1.pointer + 1
            buffer := arrSet s1.buffer (makeIndex (s1.pointer + 1) s1.capacity) value }

/-- `commit(value)`: throws unless `canCommit(value, dataType)`, else
mutates via `commitStep`.  The body has no `return` statement, so the JS
function returns `undefined`; the pair's second component records that
return value. -/
def commit (s : CircularHistory) (value : JsValue) :
    Except String (CircularHistory × JsValue) :=
  if canCommit value s.dataType then .ok (commitStep s value, JsValue.undefined)
  else .error "TypeMismatch"

/-- `commit` as a total state transformer: the new state on success, the
unchanged state when `commit` throws (the type check precedes every
mutation in the source). -/
def commitD (s : CircularHistory) (value : JsValue) : CircularHistory :=
  match commit s value with
  | .ok (s1, _) => s1
  | .error _ => s

/-- Result of `current()`: either the dedicated empty flag
(`FLAGS.empty`, a unique symbol distinct from every storable value) or a
stored value. -/
inductive CurrentValue where
  | empty
  | val (v : JsValue)
deriving DecidableEq, Repr

/-- `current()`: empty flag when the pointer is `-1` or the addressed
slot is a hole, else the stored value. -/
def current (s : CircularHistory) : CurrentValue :=
  if s.pointer = EMPTY_POINTER then .empty
  else
    let nextItem := arrGet s.buffer (makeIndex s.pointer s.capacity)
    if isItemEmpty nextItem then .empty else .val nextItem

/-- `moveBackward()`: from pointer `0` go to the empty pointer without
touching `navigatedItemsCount`; otherwise a no-op at the window's lower
bound or when already empty; otherwise decrement pointer and count. -/
def moveBackward (s : CircularHistory) : CircularHistory :=
  if s.pointer = EMPTY_POINTER + 1 then { s with pointer := EMPTY_POINTER }
  else if s.navigatedItemsCount = NAVIGATION_LOWER_BOUND ∨ s.pointer = EMPTY_POINTER then s
  else { s with pointer := s.pointer - 1
                navigatedItemsCount := s.navigatedItemsCount - 1 }

/-- `moveForward()`: recover from the empty pointer to pointer `0` when
the window is non-empty, without touching `navigatedItemsCount`;
otherwise a no-op at the window's upper bound; otherwise increment
pointer and count. -/
def moveForward (s : CircularHistory) : CircularHistory :=
  if s.pointer = EMPTY_POINTER ∧ s.navigationUpperBound > NAVIGATION_LOWER_BOUND then
    { s with pointer := EMPTY_POINTER + 1 }
  else if s.navigatedItemsCount = s.navigationUpperBound then s
  else { s with pointer := s.pointer + 1
                navigatedItemsCount := s.navigatedItemsCount + 1 }

/-- `clear()`: reset window and pointer, reallocate an all-hole buffer;
capacity and data type are untouched. -/
def clear (s : CircularHistory) : CircularHistory :=
  { s with navigatedItemsCount := NAVIGATION_LOWER_BOUND
           navigationUpperBound := NAVIGATION_LOWER_BOUND
           pointer := EMPTY_POINTER
           buffer := List.replicate s.capacity.toNat JsValue.undefined }

/-- `dump(discardHoles)`: a copy of the physical buffer, holes filtered
out when `discardHoles` is set. -/
def dump (s : CircularHistory) (discardHoles : Bool) : List JsValue :=
  let result := s.buffer
  if discardHoles then result.filter (fun slot => !(isItemEmpty slot)) else result

/-- `getCurrentIndex()`: `makeIndex(pointer, capacity)`. -/
def getCurrentIndex (s : CircularHistory) : Int :=
  makeIndex s.pointer s.capacity

/-- `isStartReached()`: count at the lower bound or pointer empty. -/
def isStartReached (s : CircularHistory) : Bool :=
  (s.navigatedItemsCount == NAVIGATION_LOWER_BOUND) || (s.pointer == EMPTY_POINTER)

/-- `isEndReached()`: count equals the window's upper bound. -/
def isEndReached (s : CircularHistory) : Bool :=
  s.navigatedItemsCount == s.navigationUpperBound

/-- A sequence of `commit` calls; stops at the first throw. -/
def commitMany (s : CircularHistory) : List JsValue → Except String CircularHistory
  | [] => .ok s
  | v :: vs =>
    match commit s v with
    | .ok (s1, _) => commitMany s1 vs
    | .error e => .error e

/-- `k` successive `moveBackward()` calls. -/
def movesBack : Nat → CircularHistory → CircularHistory
  | 0, s => s
  | k + 1, s => movesBack k (moveBackward s)

/-- A navigation call: `moveBackward()` or `moveForward()`. -/
inductive Move where
  | backward
  | forward
deriving DecidableEq, Repr

/-- Apply one navigation call. -/
def applyMove (m : Move) (s : CircularHistory) : CircularHistory :=
  match m with
  | .backward => moveBackward s
  | .forward => moveForward s

/-- Apply a sequence of navigation calls, left to right. -/
def applyMoves : List Move → CircularHistory → CircularHistory
  | [], s => s
  | m :: ms, s => applyMoves ms (applyMove m s)

end CircularHistory

namespace CircularHistory

/-! ### Basic facts about `commitStep` and `commit` -/

theorem commitStep_pointer (s : CircularHistory) (v : JsValue) :
    (commitStep s v).pointer = s.pointer + 1 := by
  unfold commitStep; split <;> rfl

theorem commitStep_capacity (s : CircularHistory) (v : JsValue) :
    (commitStep s v).capacity = s.capacity := by
  unfold commitStep; split <;> rfl

theorem commitStep_dataType (s : CircularHistory) (v : JsValue) :
    (commitStep s v).dataType = s.dataType := by
  unfold commitStep; split <;> rfl

theorem commitStep_buffer (s : CircularHistory) (v : JsValue) :
    (commitStep s v).buffer = arrSet s.buffer (makeIndex (s.pointer + 1) s.capacity) v := by
  unfold commitStep; split <;> rfl

theorem commitStep_ub_eq_count (s : CircularHistory) (v : JsValue) :
    (commitStep s v).navigationUpperBound = (commitStep s v).navigatedItemsCount := by
  unfold commitStep; split <;> rfl

theorem arrSet_length (buf : List JsValue) (i : Int) (v : JsValue) :
    (arrSet buf i v).length = buf.length := by
  unfold arrSet; split <;> simp

theorem commitStep_buffer_length (s : CircularHistory) (v : JsValue) :
    (commitStep s v).buffer.length = s.buffer.length := by
  rw [commitStep_buffer, arrSet_length]

theorem commit_eq_ok {s : CircularHistory} {v : JsValue}
    (h : canCommit v s.dataType = true) :
    commit s v = .ok (commitStep s v, JsValue.undefined) := by
  unfold commit; simp [h]

theorem commit_ok_elim {s : CircularHistory} {v : JsValue} {s' : CircularHistory} {r : JsValue}
    (h : commit s v = .ok (s', r)) :
    canCommit v s.dataType = true ∧ s' = commitStep s v ∧ r = JsValue.undefined := by
  unfold commit at h
  split at h
  · next hc =>
    simp only [Except.ok.injEq, Prod.mk.injEq] at h
    exact ⟨hc, h.1.symm, h.2.symm⟩
  · cases h

/-! ### Small list and integer helpers -/

theorem getD_set_self (l : List JsValue) (i : Nat) (v d : JsValue) (h : i < l.length) :
    (l.set i v).getD i d = v := by
  simp [List.getD_eq_getElem?_getD, List.getElem?_set_self h]

theorem getD_set_ne (l : List JsValue) (i j : Nat) (v d : JsValue) (h : i ≠ j) :
    (l.set i v).getD j d = l.getD j d := by
  simp [List.getD_eq_getElem?_getD, List.getElem?_set_ne h]

theorem getD_replicate (n j : Nat) (d : JsValue) :
    (List.replicate n d).getD j d = d := by
  simp [List.getD_eq_getElem?_getD, List.getElem?_replicate]
  split <;> rfl

theorem getLastD_congr (l : List JsValue) (d e : JsValue) (h : l ≠ []) :
    l.getLastD d = l.getLastD e := by
  cases l with
  | nil => exact absurd rfl h
  | cons a t => rw [List.getLastD_cons, List.getLastD_cons]

theorem neg_one_tmod_of_two_le (c : Nat) (h : 2 ≤ c) :
    (-1 : Int).tmod (c : Int) = -1 := by
  have h1 : ((-1 : Int)) = Int.negSucc 0 := rfl
  have h2 : (Int.negSucc 0).tmod (Int.ofNat c) = -(Int.ofNat (1 % c)) := rfl
  have h3 : 1 % c = 1 := Nat.mod_eq_of_lt (by omega)
  rw [h1, show ((c : Int)) = Int.ofNat c from rfl, h2, h3]
  rfl

theorem ofNat_tmod_ofNat (m n : Nat) :
    (m : Int).tmod (n : Int) = ((m % n : Nat) : Int) := rfl

/-! ### C3 -/

/-- C3: the claim says `commit` rejects `null` under the `object` tag with
`TypeMismatch`.  The code accepts it: `typeof null` is `"object"` and
`"object"` is in `ALLOWED_DATA_TYPES`, so the `value !== null` guard in
`isValueTypeAllowed` is made dead by the `|| isTypeAllowed(typeof value)`
disjunct.  At the failing input (`dataType = "object"`, `value = null`)
the commit succeeds and stores `null`. -/
theorem c3_null_object_commit_bug :
    canCommit JsValue.null "object" = true ∧
    (commit (init 3 "object") JsValue.null).isOk = true ∧
    current (commitD (init 3 "object") JsValue.null) = .val JsValue.null := by
  refine ⟨rfl, rfl, rfl⟩

/-! ### C7 -/

/-- C7 counterexample: at the concrete input `commit(10)` on a fresh
capacity-2 number history, the value returned by `commit` is `undefined`
(the function body has no `return` statement), not the committed value
`10` as the claim states. -/
theorem c7_return_counterexample :
    (commit (init 2 "number") (JsValue.num 10)).map (fun p => p.2) =
      .ok JsValue.undefined ∧
    JsValue.undefined ≠ JsValue.num 10 := by
  exact ⟨rfl, by decide⟩

/-- C7 (amended): a successful `commit` returns `undefined` — the
function has no `return` statement and the accompanying type declaration
types it `void`; the committed value is observable via `current()`, not
via the return value. -/
theorem c7_returns_undefined_amended (s : CircularHistory) (v : JsValue)
    (s' : CircularHistory) (r : JsValue) (h : commit s v = .ok (s', r)) :
    r = JsValue.undefined :=
  (commit_ok_elim h).2.2

/-- Witness for the amended C7 at a concrete input. -/
theorem c7_returns_undefined_amended_witness :
    ∃ (s' : CircularHistory) (r : JsValue),
      commit (init 2 "number") (JsValue.num 10) = .ok (s', r) ∧ r = JsValue.undefined :=
  ⟨commitStep (init 2 "number") (JsValue.num 10), JsValue.undefined, rfl,
    c7_returns_undefined_amended (init 2 "number") (JsValue.num 10)
      (commitStep (init 2 "number") (JsValue.num 10)) JsValue.undefined rfl⟩

/-! ### C9 -/

/-- C9: `isEndReached()` is true immediately after construction, and is
true immediately after every successful `commit`, from any state. -/
theorem c9_isEndReached_after_commit :
    (∀ (c : Int) (dt : String), isEndReached (init c dt) = true) ∧
    (∀ (s : CircularHistory) (v : JsValue) (s' : CircularHistory) (r : JsValue),
      commit s v = .ok (s', r) → isEndReached s' = true) := by
  constructor
  · intro c dt; rfl
  · intro s v s' r h
    obtain ⟨-, rfl, -⟩ := commit_ok_elim h
    simp [isEndReached, commitStep_ub_eq_count]

/-- Witness for C9 at a concrete input. -/
theorem c9_isEndReached_after_commit_witness :
    isEndReached (init 3 "number") = true ∧
    isEndReached (commitStep (init 3 "number") (JsValue.num 1)) = true :=
  ⟨c9_isEndReached_after_commit.1 3 "number",
   c9_isEndReached_after_commit.2 (init 3 "number") (JsValue.num 1)
     (commitStep (init 3 "number") (JsValue.num 1)) JsValue.undefined rfl⟩

/-! ### C6 -/

/-- C6 counterexample: capacity 1, one commit.  The state has
`navigatedItemsCount = 0`, so the claim says `moveBackward` is a no-op;
but the pointer is `0`, so the special transition fires first and the
state changes (the pointer becomes `-1` and `current()` flips from the
committed value to Empty). -/
theorem c6_noop_counterexample :
    let s := commitD (init 1 "number") (JsValue.num 5)
    s.navigatedItemsCount = 0 ∧
    moveBackward s ≠ s ∧
    current s = .val (JsValue.num 5) ∧
    current (moveBackward s) = .empty := by
  decide

/-- C6 (amended): `moveBackward` is a no-op in every state in which
`navigatedItemsCount = 0` or the pointer is `-1`, provided the pointer is
not `0`; when the pointer is `0` the special Empty transition fires first
and sets the pointer to `-1` even if `navigatedItemsCount = 0`. -/
theorem c6_noop_amended (s : CircularHistory) (hp : s.pointer ≠ 0)
    (h : s.navigatedItemsCount = 0 ∨ s.pointer = -1) :
    moveBackward s = s := by
  unfold moveBackward
  rw [if_neg (by simpa [EMPTY_POINTER] using hp), if_pos]
  simpa [NAVIGATION_LOWER_BOUND, EMPTY_POINTER] using h

/-- Witness for the amended C6 at a concrete input. -/
theorem c6_noop_amended_witness :
    moveBackward (init 3 "number") = init 3 "number" :=
  c6_noop_amended (init 3 "number") (by decide) (Or.inl (by decide))

/-! ### C5 -/

/-- C5 counterexample: capacity 3, commits 1,2,3,4 (one wrap), then two
backward moves.  The cursor is now at the oldest navigable entry
(`navigatedItemsCount = 0`, `isStartReached` true, `current() = 2`), but
`moveBackward` is a no-op — `current()` stays `2` instead of becoming
Empty, because the Empty transition only fires when the pointer is `0`
and here the pointer is `1` after the wrap. -/
theorem c5_oldest_entry_counterexample :
    let s := movesBack 2 (commitD (commitD (commitD (commitD
      (init 3 "number") (JsValue.num 1)) (JsValue.num 2)) (JsValue.num 3)) (JsValue.num 4))
    s.navigatedItemsCount = 0 ∧
    isStartReached s = true ∧
    current s = .val (JsValue.num 2) ∧
    moveBackward s = s ∧
    current (moveBackward s) = .val (JsValue.num 2) := by
  decide

/-- C5 (amended): from any state whose pointer is `0` (the oldest
navigable entry when the history has not wrapped past the origin) and
whose navigable window is non-empty, `moveBackward` yields Empty and a
subsequent `moveForward` restores exactly the prior state, so `current()`
returns that same entry.  When the cursor is at the oldest navigable
entry with pointer `> 0` (after wrap-around), `moveBackward` is a no-op
instead. -/
theorem c5_round_trip_amended (s : CircularHistory) (hp : s.pointer = 0)
    (hub : 0 < s.navigationUpperBound) :
    current (moveBackward s) = .empty ∧
    moveForward (moveBackward s) = s ∧
    current (moveForward (moveBackward s)) = current s := by
  have h1 : moveBackward s = { s with pointer := EMPTY_POINTER } := by
    unfold moveBackward
    rw [if_pos (by rw [hp]; decide)]
  have h2 : current (moveBackward s) = .empty := by
    rw [h1]; unfold current; rw [if_pos rfl]
  have h3 : moveForward (moveBackward s) = s := by
    rw [h1]
    unfold moveForward
    rw [if_pos ⟨rfl, hub⟩]
    cases s
    simp only [CircularHistory.pointer] at hp
    simp [hp]
    decide
  exact ⟨h2, h3, by rw [h3]⟩

/-- Witness for the amended C5 at a concrete input. -/
theorem c5_round_trip_amended_witness :
    current (moveBackward (commitD (init 3 "number") (JsValue.num 7))) = .empty ∧
    moveForward (moveBackward (commitD (init 3 "number") (JsValue.num 7))) =
      commitD (init 3 "number") (JsValue.num 7) ∧
    current (moveForward (moveBackward (commitD (init 3 "number") (JsValue.num 7)))) =
      current (commitD (init 3 "number") (JsValue.num 7)) :=
  c5_round_trip_amended (commitD (init 3 "number") (JsValue.num 7)) (by decide) (by decide)

/-! ### C10 -/

/-- C10: a successful commit writes `value` at physical index
`(pointer + 1) % capacity` — an in-range index — and leaves every other
slot, the capacity and the data-type tag unchanged. -/
theorem c10_commit_single_slot_frame (s : CircularHistory) (v : JsValue)
    (s' : CircularHistory) (r : JsValue)
    (hp : -1 ≤ s.pointer) (hc : 1 ≤ s.capacity)
    (hlen : s.buffer.length = s.capacity.toNat)
    (h : commit s v = .ok (s', r)) :
    s'.capacity = s.capacity ∧ s'.dataType = s.dataType ∧
    s'.buffer = s.buffer.set ((makeIndex (s.pointer + 1) s.capacity).toNat) v ∧
    (makeIndex (s.pointer + 1) s.capacity).toNat < s.buffer.length ∧
    (∀ j : Nat, j ≠ (makeIndex (s.pointer + 1) s.capacity).toNat →
      s'.buffer.getD j JsValue.undefined = s.buffer.getD j JsValue.undefined) := by
  obtain ⟨-, rfl, -⟩ := commit_ok_elim h
  have h0 : (0 : Int) ≤ makeIndex (s.pointer + 1) s.capacity :=
    Int.tmod_nonneg s.capacity (by omega)
  have h1 : makeIndex (s.pointer + 1) s.capacity < s.capacity :=
    Int.tmod_lt_of_pos (s.pointer + 1) (by omega)
  have h2 : (makeIndex (s.pointer + 1) s.capacity).toNat < s.buffer.length := by
    rw [hlen]; omega
  have hbuf : (commitStep s v).buffer =
      s.buffer.set ((makeIndex (s.pointer + 1) s.capacity).toNat) v := by
    rw [commitStep_buffer]; unfold arrSet; rw [if_pos h0]
  refine ⟨commitStep_capacity s v, commitStep_dataType s v, hbuf, h2, ?_⟩
  intro j hj
  rw [hbuf, getD_set_ne _ _ _ _ _ (Ne.symm hj)]

/-- Witness for C10 at a concrete input: after one commit on a fresh
capacity-3 history the next commit writes at physical index 1 and leaves
slot 0 intact. -/
theorem c10_commit_single_slot_frame_witness :
    (commitStep (commitD (init 3 "number") (JsValue.num 1)) (JsValue.num 2)).buffer =
      (commitD (init 3 "number") (JsValue.num 1)).buffer.set 1 (JsValue.num 2) ∧
    (commitStep (commitD (init 3 "number") (JsValue.num 1)) (JsValue.num 2)).buffer.getD 0
        JsValue.undefined =
      (commitD (init 3 "number") (JsValue.num 1)).buffer.getD 0 JsValue.undefined := by
  have h := c10_commit_single_slot_frame (commitD (init 3 "number") (JsValue.num 1))
    (JsValue.num 2) (commitStep (commitD (init 3 "number") (JsValue.num 1)) (JsValue.num 2))
    JsValue.undefined (by decide) (by decide) (by decide) rfl
  exact ⟨h.2.2.1, h.2.2.2.2 0 (by decide)⟩

theorem commitStep_count (s : CircularHistory) (v : JsValue) :
    (commitStep s v).navigatedItemsCount =
      if s.navigatedItemsCount = s.capacity - 1 then s.capacity - 1
      else s.navigatedItemsCount + 1 := by
  unfold commitStep; split <;> rfl

theorem commitStep_ub (s : CircularHistory) (v : JsValue) :
    (commitStep s v).navigationUpperBound =
      if s.navigatedItemsCount = s.capacity - 1 then s.capacity - 1
      else s.navigatedItemsCount + 1 := by
  unfold commitStep; split <;> rfl

/-! ### C4 -/

/-- The navigable-window invariant of the spec.  Capacity positivity is
part of it: it is fixed at construction and needed by the upper bound. -/
def Inv (s : CircularHistory) : Prop :=
  1 ≤ s.capacity ∧ 0 ≤ s.navigatedItemsCount ∧
  s.navigatedItemsCount ≤ s.navigationUpperBound ∧
  s.navigationUpperBound ≤ s.capacity - 1

instance (s : CircularHistory) : Decidable (Inv s) := by
  unfold Inv; infer_instance

/-- C4: the navigable-window invariant
`0 ≤ navigatedItemsCount ≤ navigationUpperBound ≤ capacity - 1` holds at
construction (for positive capacity) and is preserved by `commit`,
`moveBackward`, `moveForward` and `clear`. -/
theorem c4_window_invariant :
    (∀ (c : Int) (dt : String), 1 ≤ c → Inv (init c dt)) ∧
    (∀ (s : CircularHistory) (v : JsValue) (s' : CircularHistory) (r : JsValue),
      Inv s → commit s v = .ok (s', r) → Inv s') ∧
    (∀ s : CircularHistory, Inv s → Inv (moveBackward s)) ∧
    (∀ s : CircularHistory, Inv s → Inv (moveForward s)) ∧
    (∀ s : CircularHistory, Inv s → Inv (clear s)) := by
  refine ⟨?_, ?_, ?_, ?_, ?_⟩
  · intro c dt hc
    simp only [Inv, init, NAVIGATION_LOWER_BOUND]
    omega
  · intro s v s' r hs h
    obtain ⟨-, rfl, -⟩ := commit_ok_elim h
    simp only [Inv] at hs ⊢
    rw [commitStep_capacity, commitStep_count, commitStep_ub]
    by_cases hcase : s.navigatedItemsCount = s.capacity - 1
    · simp only [if_pos hcase]; omega
    · simp only [if_neg hcase]; omega
  · intro s hs
    simp only [Inv] at hs ⊢
    unfold moveBackward
    split
    · exact hs
    · split
      · exact hs
      · next hcond =>
        simp only [NAVIGATION_LOWER_BOUND, EMPTY_POINTER] at hcond
        dsimp only
        omega
  · intro s hs
    simp only [Inv] at hs ⊢
    unfold moveForward
    split
    · exact hs
    · split
      · exact hs
      · next hcond =>
        dsimp only
        omega
  · intro s hs
    simp only [Inv, clear, NAVIGATION_LOWER_BOUND] at hs ⊢
    omega

/-- Witness for C4 at concrete inputs. -/
theorem c4_window_invariant_witness :
    Inv (init 3 "number") ∧
    Inv (commitStep (init 3 "number") (JsValue.num 1)) ∧
    Inv (moveBackward (init 3 "number")) ∧
    Inv (moveForward (init 3 "number")) ∧
    Inv (clear (init 3 "number")) :=
  ⟨c4_window_invariant.1 3 "number" (by decide),
   c4_window_invariant.2.1 (init 3 "number") (JsValue.num 1)
     (commitStep (init 3 "number") (JsValue.num 1)) JsValue.undefined (by decide) rfl,
   c4_window_invariant.2.2.1 (init 3 "number") (by decide),
   c4_window_invariant.2.2.2.1 (init 3 "number") (by decide),
   c4_window_invariant.2.2.2.2 (init 3 "number") (by decide)⟩

/-! ### C8 -/

theorem neg_one_tmod (c : Int) (h : 2 ≤ c) : (-1 : Int).tmod c = -1 := by
  obtain ⟨n, rfl⟩ : ∃ n : Nat, c = (n : Int) :=
    ⟨c.toNat, (Int.toNat_of_nonneg (by omega)).symm⟩
  exact neg_one_tmod_of_two_le n (by exact_mod_cast h)

theorem moveBackward_clear (s : CircularHistory) :
    moveBackward (clear s) = clear s := by
  unfold moveBackward
  rw [if_neg (show ¬((clear s).pointer = EMPTY_POINTER + 1) by
        show ¬(EMPTY_POINTER = EMPTY_POINTER + 1); decide),
      if_pos (Or.inl (show (clear s).navigatedItemsCount = NAVIGATION_LOWER_BOUND from rfl))]

theorem moveForward_clear (s : CircularHistory) :
    moveForward (clear s) = clear s := by
  unfold moveForward
  rw [if_neg (show ¬((clear s).pointer = EMPTY_POINTER ∧
        (clear s).navigationUpperBound > NAVIGATION_LOWER_BOUND) by
        show ¬(EMPTY_POINTER = EMPTY_POINTER ∧ NAVIGATION_LOWER_BOUND > NAVIGATION_LOWER_BOUND)
        decide),
      if_pos (show (clear s).navigatedItemsCount = (clear s).navigationUpperBound from rfl)]

theorem applyMoves_clear (ms : List Move) (s : CircularHistory) :
    applyMoves ms (clear s) = clear s := by
  induction ms with
  | nil => rfl
  | cons m ms ih =>
    have hm : applyMove m (clear s) = clear s := by
      cases m
      · exact moveBackward_clear s
      · exact moveForward_clear s
    show applyMoves ms (applyMove m (clear s)) = clear s
    rw [hm, ih]

/-- C8 counterexample: with capacity `1`, after a commit and a `clear()`,
`getCurrentIndex()` is `0` and not `-1` (in JS, `-1 % 1` is `-0`), both
right after the clear and after a further `moveBackward` — while the
claim demands `-1` for every capacity. -/
theorem c8_capacity_one_counterexample :
    getCurrentIndex (clear (commitD (init 1 "number") (JsValue.num 5))) = 0 ∧
    getCurrentIndex (moveBackward (clear (commitD (init 1 "number") (JsValue.num 5)))) = 0 ∧
    ((0 : Int) ≠ -1) ∧
    current (clear (commitD (init 1 "number") (JsValue.num 5))) = .empty := by
  decide

/-- C8 (amended): for capacities `≥ 2`, `clear()` followed by any finite
sequence of `moveBackward`/`moveForward` calls leaves `current()` Empty
and `getCurrentIndex()` equal to `-1` until the next commit.  (For
capacity `1`, `current()` is still Empty but `getCurrentIndex()` is `0`,
since `-1 % 1` is `-0`.) -/
theorem c8_after_clear_amended (s0 : CircularHistory) (ms : List Move)
    (hc : 2 ≤ s0.capacity) :
    current (applyMoves ms (clear s0)) = .empty ∧
    getCurrentIndex (applyMoves ms (clear s0)) = -1 := by
  rw [applyMoves_clear]
  constructor
  · unfold current
    rw [if_pos (show (clear s0).pointer = EMPTY_POINTER from rfl)]
  · unfold getCurrentIndex makeIndex
    show (-1 : Int).tmod s0.capacity = -1
    exact neg_one_tmod s0.capacity hc

/-- Witness for the amended C8 at a concrete input. -/
theorem c8_after_clear_amended_witness :
    current (applyMoves [Move.backward, Move.forward] (clear (init 2 "number"))) = .empty ∧
    getCurrentIndex (applyMoves [Move.backward, Move.forward] (clear (init 2 "number"))) = -1 :=
  c8_after_clear_amended (init 2 "number") [Move.backward, Move.forward] (by decide)

/-! ### Commit sequences -/

theorem canCommit_ne_undefined {v : JsValue} {dt : String}
    (h : canCommit v dt = true) : v ≠ JsValue.undefined := by
  rintro rfl
  have hval : isValueTypeAllowed JsValue.undefined = false := by decide
  unfold canCommit at h
  rw [hval] at h
  simp at h

theorem commitMany_cons (s : CircularHistory) (v : JsValue) (vs : List JsValue)
    (h : canCommit v s.dataType = true) :
    commitMany s (v :: vs) = commitMany (commitStep s v) vs := by
  show (match commit s v with
        | .ok (s1, _) => commitMany s1 vs
        | .error e => Except.error e) = commitMany (commitStep s v) vs
  rw [commit_eq_ok h]

theorem current_commitStep (s : CircularHistory) (v : JsValue)
    (hc : 1 ≤ s.capacity) (hp : -1 ≤ s.pointer)
    (hlen : s.buffer.length = s.capacity.toNat) (hv : v ≠ JsValue.undefined) :
    current (commitStep s v) = .val v := by
  have hidx0 : (0 : Int) ≤ makeIndex (s.pointer + 1) s.capacity :=
    Int.tmod_nonneg s.capacity (by omega)
  have hidx1 : makeIndex (s.pointer + 1) s.capacity < s.capacity :=
    Int.tmod_lt_of_pos (s.pointer + 1) (by omega)
  have hb : (commitStep s v).buffer =
      s.buffer.set ((makeIndex (s.pointer + 1) s.capacity).toNat) v := by
    rw [commitStep_buffer]; unfold arrSet; rw [if_pos hidx0]
  unfold current
  rw [if_neg (by
    rw [commitStep_pointer]
    show ¬(s.pointer + 1 = EMPTY_POINTER)
    unfold EMPTY_POINTER
    omega)]
  rw [commitStep_pointer, commitStep_capacity, hb]
  unfold arrGet
  rw [if_pos hidx0]
  rw [getD_set_self _ _ _ _ (by rw [hlen]; omega)]
  rw [if_neg (by simp [isItemEmpty, hv])]

theorem current_commitMany (vs : List JsValue) :
    ∀ (s : CircularHistory), vs ≠ [] →
      1 ≤ s.capacity → s.buffer.length = s.capacity.toNat → -1 ≤ s.pointer →
      (∀ u ∈ vs, canCommit u s.dataType = true) →
      ∃ s', commitMany s vs = .ok s' ∧
        current s' = .val (vs.getLastD JsValue.undefined) := by
  induction vs with
  | nil => intro s h; exact absurd rfl h
  | cons v rest ih =>
    intro s _ hc hlen hp hv
    have hcv : canCommit v s.dataType = true := hv v (List.mem_cons_self v rest)
    have hstep := commitMany_cons s v rest hcv
    cases rest with
    | nil =>
      refine ⟨commitStep s v, by rw [hstep]; rfl, ?_⟩
      have : ([v] : List JsValue).getLastD JsValue.undefined = v := rfl
      rw [this]
      exact current_commitStep s v hc hp hlen (canCommit_ne_undefined hcv)
    | cons w rest2 =>
      have ihres := ih (commitStep s v) (by simp)
        (by rw [commitStep_capacity]; exact hc)
        (by rw [commitStep_buffer_length, commitStep_capacity]; exact hlen)
        (by rw [commitStep_pointer]; omega)
        (by intro u hu
            rw [commitStep_dataType]
            exact hv u (List.mem_cons_of_mem v hu))
      obtain ⟨s', h1, h2⟩ := ihres
      refine ⟨s', by rw [hstep]; exact h1, ?_⟩
      rw [List.getLastD_cons, getLastD_congr (w :: rest2) v JsValue.undefined (by simp)]
      exact h2

theorem commitMany_spec (c : Nat) (hc : 1 ≤ c) (vs : List JsValue) :
    ∀ (s : CircularHistory) (k : Nat),
      s.capacity = (c : Int) →
      s.buffer.length = c →
      s.pointer = (k : Int) - 1 →
      s.navigatedItemsCount = ((min k (c - 1) : Nat) : Int) →
      s.navigationUpperBound = s.navigatedItemsCount →
      (∀ u ∈ vs, canCommit u s.dataType = true) →
      (∀ j, j < c → (s.buffer.getD j JsValue.undefined ≠ JsValue.undefined ↔ j < min k c)) →
      ∃ s', commitMany s vs = .ok s' ∧
        s'.capacity = (c : Int) ∧ s'.dataType = s.dataType ∧
        s'.buffer.length = c ∧
        s'.pointer = ((k + vs.length : Nat) : Int) - 1 ∧
        s'.navigatedItemsCount = ((min (k + vs.length) (c - 1) : Nat) : Int) ∧
        s'.navigationUpperBound = s'.navigatedItemsCount ∧
        (∀ j, j < c →
          (s'.buffer.getD j JsValue.undefined ≠ JsValue.undefined ↔ j < min (k + vs.length) c)) := by
  induction vs with
  | nil =>
    intro s k h1 h2 h3 h4 h5 _ h7
    exact ⟨s, rfl, h1, rfl, h2, by simpa using h3, by simpa using h4, h5,
      by simpa using h7⟩
  | cons v rest ih =>
    intro s k h1 h2 h3 h4 h5 hv h7
    have hcv : canCommit v s.dataType = true := hv v (List.mem_cons_self v rest)
    rw [commitMany_cons s v rest hcv]
    have tcap : (commitStep s v).capacity = (c : Int) := by
      rw [commitStep_capacity, h1]
    have tdt : (commitStep s v).dataType = s.dataType := commitStep_dataType s v
    have tlen : (commitStep s v).buffer.length = c := by
      rw [commitStep_buffer_length, h2]
    have tptr : (commitStep s v).pointer = ((k + 1 : Nat) : Int) - 1 := by
      rw [commitStep_pointer, h3]; push_cast; ring
    have tcount : (commitStep s v).navigatedItemsCount =
        ((min (k + 1) (c - 1) : Nat) : Int) := by
      rw [commitStep_count, h1, h4]
      split
      · next hcond => omega
      · next hcond => omega
    have tub : (commitStep s v).navigationUpperBound =
        (commitStep s v).navigatedItemsCount := commitStep_ub_eq_count s v
    have thv : ∀ u ∈ rest, canCommit u (commitStep s v).dataType = true := by
      intro u hu
      rw [tdt]
      exact hv u (List.mem_cons_of_mem v hu)
    have hbufeq : (commitStep s v).buffer = s.buffer.set (k % c) v := by
      rw [commitStep_buffer, h3, h1]
      have he : ((k : Int) - 1 + 1) = (k : Int) := by ring
      rw [he]
      unfold makeIndex arrSet
      rw [ofNat_tmod_ofNat]
      rw [if_pos (by positivity)]
      rfl
    have tfill : ∀ j, j < c →
        ((commitStep s v).buffer.getD j JsValue.undefined ≠ JsValue.undefined ↔
          j < min (k + 1) c) := by
      intro j hj
      rw [hbufeq]
      have hkc : k % c < c := Nat.mod_lt k (by omega)
      have hkle : k % c ≤ k := Nat.mod_le k c
      by_cases hj2 : j = k % c
      · subst hj2
        rw [getD_set_self _ _ _ _ (by rw [h2]; exact hkc)]
        have hne := canCommit_ne_undefined hcv
        constructor
        · intro _
          rcases Nat.lt_or_ge k c with hcase | hcase
          · have := Nat.mod_eq_of_lt hcase; omega
          · omega
        · intro _; exact hne
      · rw [getD_set_ne _ _ _ _ _ (Ne.symm hj2)]
        rw [h7 j hj]
        rcases Nat.lt_or_ge k c with hcase | hcase
        · have := Nat.mod_eq_of_lt hcase; omega
        · omega
    obtain ⟨s', hs1, hs2, hs3, hs4, hs5, hs6, hs7, hs8⟩ :=
      ih (commitStep s v) (k + 1) tcap tlen tptr tcount tub thv tfill
    refine ⟨s', hs1, hs2, by rw [hs3, tdt], hs4, ?_, ?_, hs7, ?_⟩
    · rw [hs5]
      simp only [List.length_cons]
      congr 1
      omega
    · rw [hs6]
      simp only [List.length_cons]
      congr 2
      omega
    · intro j hj
      rw [hs8 j hj]
      simp only [List.length_cons]
      constructor <;> (intro hlt; omega)

/-! ### C1 -/

/-- C1: for every capacity `c ≥ 1` and every sequence of `c + 1` valid
commits on a freshly constructed history, the final state is reached
without a throw, `dump(true)` has length exactly `c`, and `current()`
returns the last committed value. -/
theorem c1_capacity_plus_one_commits (c : Nat) (dt : String) (vs : List JsValue)
    (hc : 1 ≤ c) (hlen : vs.length = c + 1)
    (hvalid : ∀ v ∈ vs, canCommit v dt = true) :
    ∃ s', commitMany (init (c : Int) dt) vs = .ok s' ∧
      (dump s' true).length = c ∧
      current s' = .val (vs.getLastD JsValue.undefined) := by
  have hdt : (init (c : Int) dt).dataType = dt := rfl
  have hspec := commitMany_spec c hc vs (init (c : Int) dt) 0
    rfl
    (by simp [init])
    (by simp [init, EMPTY_POINTER])
    (by simp [init, NAVIGATION_LOWER_BOUND])
    rfl
    (by intro u hu; rw [hdt]; exact hvalid u hu)
    (by intro j hj
        show ((List.replicate (c : Int).toNat JsValue.undefined).getD j JsValue.undefined ≠
          JsValue.undefined ↔ j < min 0 c)
        have hrep : (c : Int).toNat = c := rfl
        rw [hrep, getD_replicate]
        simp)
  obtain ⟨s', h1, h2, h3, h4, h5, h6, h7, h8⟩ := hspec
  have hfull : ∀ a ∈ s'.buffer, (!(isItemEmpty a)) = true := by
    intro a ha
    obtain ⟨i, hi, hgi⟩ := List.getElem_of_mem ha
    have hic : i < c := by rw [← h4]; exact hi
    have hne : s'.buffer.getD i JsValue.undefined ≠ JsValue.undefined := by
      rw [h8 i hic]
      omega
    rw [List.getD_eq_getElem _ _ hi, hgi] at hne
    simp [isItemEmpty, hne]
  have hdump : dump s' true = s'.buffer := by
    unfold dump
    rw [if_pos rfl]
    exact List.filter_eq_self.mpr hfull
  have hvsne : vs ≠ [] := by
    intro h; rw [h] at hlen; simp at hlen
  obtain ⟨s2, hcm, hcur⟩ := current_commitMany vs (init (c : Int) dt) hvsne
    (show (1 : Int) ≤ (c : Int) from by exact_mod_cast hc)
    (by simp [init])
    (show (-1 : Int) ≤ -1 from le_refl _)
    (by intro u hu; rw [hdt]; exact hvalid u hu)
  rw [h1] at hcm
  simp only [Except.ok.injEq] at hcm
  subst hcm
  exact ⟨s', h1, by rw [hdump, h4], hcur⟩

/-- Witness for C1 at a concrete input: capacity 2, commits 1, 2, 3. -/
theorem c1_capacity_plus_one_commits_witness :
    ∃ s', commitMany (init (2 : Int) "number")
        [JsValue.num 1, JsValue.num 2, JsValue.num 3] = .ok s' ∧
      (dump s' true).length = 2 ∧
      current s' = .val ([JsValue.num 1, JsValue.num 2,
        JsValue.num 3].getLastD JsValue.undefined) :=
  c1_capacity_plus_one_commits 2 "number" [JsValue.num 1, JsValue.num 2, JsValue.num 3]
    (by decide) (by decide) (by decide)

/-! ### C2 -/

theorem movesBack_spec (k : Nat) :
    ∀ (s : CircularHistory),
      (k : Int) ≤ s.pointer → (k : Int) ≤ s.navigatedItemsCount →
      movesBack k s = { s with pointer := s.pointer - k,
                               navigatedItemsCount := s.navigatedItemsCount - k } := by
  induction k with
  | zero =>
    intro s _ _
    show s = _
    simp
  | succ n ih =>
    intro s h1 h2
    have hmb : moveBackward s = { s with pointer := s.pointer - 1,
                                         navigatedItemsCount := s.navigatedItemsCount - 1 } := by
      unfold moveBackward
      rw [if_neg (by
        show ¬(s.pointer = EMPTY_POINTER + 1)
        unfold EMPTY_POINTER
        omega)]
      rw [if_neg (by
        show ¬(s.navigatedItemsCount = NAVIGATION_LOWER_BOUND ∨ s.pointer = EMPTY_POINTER)
        unfold NAVIGATION_LOWER_BOUND EMPTY_POINTER
        omega)]
    show movesBack n (moveBackward s) = _
    rw [hmb]
    rw [ih _ (by dsimp; omega) (by dsimp; omega)]
    simp only [CircularHistory.mk.injEq, and_true, true_and]
    omega

/-- C2 counterexample: capacity 10, commits 1,2,3 (`navigatedItemsCount`
is 3), two backward moves (`0 < 2 < 3`), then `commit(4)`.  The claim
predicts that the `k = 2` entries ahead of the new cursor (2 and 3) are
discarded, so `dump(true)` would be `[1, 4]`; the code only overwrites
the single slot at the new cursor position and `dump(true)` is
`[1, 4, 3]` — the entry `3` is still observed. -/
theorem c2_redo_discard_counterexample :
    let s1 := commitD (commitD (commitD (init 10 "number")
      (JsValue.num 1)) (JsValue.num 2)) (JsValue.num 3)
    s1.navigatedItemsCount = 3 ∧
    dump (commitD (movesBack 2 s1) (JsValue.num 4)) true =
      [JsValue.num 1, JsValue.num 4, JsValue.num 3] ∧
    JsValue.num 3 ∈ dump (commitD (movesBack 2 s1) (JsValue.num 4)) true ∧
    dump (commitD (movesBack 2 s1) (JsValue.num 4)) true ≠
      [JsValue.num 1, JsValue.num 4] := by
  decide

/-- C2 (amended): committing after `k` backward moves
(`0 < k < navigatedItemsCount`, history built by a sequence of valid
commits) overwrites exactly the single entry at the new cursor's physical
index `(pointer + 1) % capacity`; every other slot — including the `k - 1`
remaining entries ahead of the cursor — is unchanged and still appears in
the next `dump(true)`. -/
theorem c2_redo_overwrite_amended (c : Nat) (dt : String) (vs : List JsValue)
    (v : JsValue) (k : Nat) (hc : 1 ≤ c)
    (hvs : ∀ u ∈ vs, canCommit u dt = true) (hv : canCommit v dt = true)
    (_hk0 : 0 < k) (hk : k < min vs.length (c - 1)) :
    ∃ s1 s3 r,
      commitMany (init (c : Int) dt) vs = .ok s1 ∧
      (k : Int) < s1.navigatedItemsCount ∧
      commit (movesBack k s1) v = .ok (s3, r) ∧
      s3.buffer = (movesBack k s1).buffer.set
        ((makeIndex ((movesBack k s1).pointer + 1) (c : Int)).toNat) v ∧
      (∀ j : Nat, j < c →
        j ≠ (makeIndex ((movesBack k s1).pointer + 1) (c : Int)).toNat →
        s3.buffer.getD j JsValue.undefined =
          (movesBack k s1).buffer.getD j JsValue.undefined) := by
  have hdt : (init (c : Int) dt).dataType = dt := rfl
  have hspec := commitMany_spec c hc vs (init (c : Int) dt) 0
    rfl
    (by simp [init])
    (by simp [init, EMPTY_POINTER])
    (by simp [init, NAVIGATION_LOWER_BOUND])
    rfl
    (by intro u hu; rw [hdt]; exact hvs u hu)
    (by intro j hj
        show ((List.replicate (c : Int).toNat JsValue.undefined).getD j JsValue.undefined ≠
          JsValue.undefined ↔ j < min 0 c)
        have hrep : (c : Int).toNat = c := rfl
        rw [hrep, getD_replicate]
        simp)
  obtain ⟨s1, h1, h2, h3, h4, h5, h6, h7, h8⟩ := hspec
  have hkcount : (k : Int) < s1.navigatedItemsCount := by
    rw [h6]
    have : k < min (0 + vs.length) (c - 1) := by omega
    exact_mod_cast this
  have hkptr : (k : Int) ≤ s1.pointer := by
    rw [h5]
    have : k + 1 ≤ 0 + vs.length := by omega
    omega
  have hmb := movesBack_spec k s1 hkptr (by omega)
  have hcap2 : (movesBack k s1).capacity = (c : Int) := by rw [hmb]; exact h2
  have hdt2 : (movesBack k s1).dataType = dt := by
    rw [hmb]
    show s1.dataType = dt
    rw [h3, hdt]
  have hp2 : (0 : Int) ≤ (movesBack k s1).pointer + 1 := by
    rw [hmb]
    show 0 ≤ s1.pointer - k + 1
    omega
  have hcv2 : canCommit v (movesBack k s1).dataType = true := by rw [hdt2]; exact hv
  have hidx0 : (0 : Int) ≤ makeIndex ((movesBack k s1).pointer + 1) (c : Int) :=
    Int.tmod_nonneg _ hp2
  have hbuf3 : (commitStep (movesBack k s1) v).buffer =
      (movesBack k s1).buffer.set
        ((makeIndex ((movesBack k s1).pointer + 1) (c : Int)).toNat) v := by
    rw [commitStep_buffer, hcap2]
    unfold arrSet
    rw [if_pos hidx0]
  refine ⟨s1, commitStep (movesBack k s1) v, JsValue.undefined, h1, hkcount,
    commit_eq_ok hcv2, hbuf3, ?_⟩
  intro j hj hjne
  rw [hbuf3, getD_set_ne _ _ _ _ _ (Ne.symm hjne)]

/-- Witness for the amended C2 at a concrete input: capacity 10, commits
1,2,3, two backward moves, then `commit(4)`. -/
theorem c2_redo_overwrite_amended_witness :
    ∃ s1 s3 r,
      commitMany (init (10 : Int) "number")
        [JsValue.num 1, JsValue.num 2, JsValue.num 3] = .ok s1 ∧
      ((2 : Nat) : Int) < s1.navigatedItemsCount ∧
      commit (movesBack 2 s1) (JsValue.num 4) = .ok (s3, r) ∧
      s3.buffer = (movesBack 2 s1).buffer.set
        ((makeIndex ((movesBack 2 s1).pointer + 1) (10 : Int)).toNat) (JsValue.num 4) ∧
      (∀ j : Nat, j < 10 →
        j ≠ (makeIndex ((movesBack 2 s1).pointer + 1) (10 : Int)).toNat →
        s3.buffer.getD j JsValue.undefined =
          (movesBack 2 s1).buffer.getD j JsValue.undefined) :=
  c2_redo_overwrite_amended 10 "number" [JsValue.num 1, JsValue.num 2, JsValue.num 3]
    (JsValue.num 4) 2 (by decide) (by decide) (by decide) (by decide) (by decide)

end CircularHistory
